import Mathlib

/-!
Shallow embedding of `logging-utils` (`src/logging.js`): log-level based logging
configuration installed onto arbitrary target objects.

Modelling conventions:
* JavaScript property values that the library inspects are modelled by `JSVal`
  (undefined, null, booleans, strings, installed functions, the dispatcher, a
  logger reference, and an opaque catch-all `otherV`).
* An underlying logger is either the `console` object or a plain object
  described by which of the six methods (`error`, `warn`, `info`, `debug`,
  `trace`, `log`) it exposes.  A logger value is always truthy, so absent or
  falsy `underlyingLogger` fields are modelled as `none`.
* Installed logging functions are modelled by `LevelFn`: the bound underlying
  method name plus an optional level prefix, or the shared `noop`.  Invoking
  one yields its observable effect: `none` for `noop`, otherwise the underlying
  logger method invoked together with the (possibly prefix-rewritten) argument
  list.
* Mutation of the target is modelled functionally: `configureLogging` returns
  the updated target on success, and on a thrown error returns the error tag
  together with the target exactly as it was at the moment of the throw (both
  throw sites in the source run before any target mutation).
-/

namespace LoggingUtils

/-- The six method names probed / bound on an underlying logger. -/
inductive MethodName
  | error
  | warn
  | info
  | debug
  | trace
  | log
deriving DecidableEq, Repr

/-- An underlying logger: the literal `console`, or a logger-like object
described by which of the six methods it has (`typeof logger.m === 'function'`). -/
structure LoggerObj where
  hasError : Bool
  hasWarn : Bool
  hasInfo : Bool
  hasDebug : Bool
  hasTrace : Bool
  hasLog : Bool
deriving DecidableEq, Repr

/-- A (truthy) value supplied as `underlyingLogger`. -/
inductive Logger
  | console
  | obj (o : LoggerObj)
deriving DecidableEq, Repr

/-- `typeof logger.m === 'function'` (every console method is present). -/
def loggerHas : Logger → MethodName → Bool
  | .console, _ => true
  | .obj o, .error => o.hasError
  | .obj o, .warn => o.hasWarn
  | .obj o, .info => o.hasInfo
  | .obj o, .debug => o.hasDebug
  | .obj o, .trace => o.hasTrace
  | .obj o, .log => o.hasLog

/-- `isMinimumViableLogger` (src/logging.js lines 363-365): `console`, or a
truthy object with both a `log` method and an `error` method. -/
def isMinimumViableLogger : Logger → Bool
  | .console => true
  | .obj o => o.hasLog && o.hasError

/-- An installed logging function: the shared no-op, a bound underlying method,
or a bound underlying method wrapped with a log-level prefix. -/
inductive LevelFn
  | noop
  | plain (m : MethodName)
  | prefixed (m : MethodName) (pfx : String)
deriving DecidableEq, Repr

/-- A JavaScript argument passed to a logging call, as far as the library
inspects it: a string, an `Error` (carrying its `String(...)` conversion and its
optional `stack` text), or any other value carrying its string conversion. -/
inductive JSArg
  | strA (s : String)
  | errA (text : String) (stack : Option String)
  | otherA (text : String)
deriving DecidableEq, Repr

/-- ASCII whitespace, the relevant fragment of the JavaScript `\s` class. -/
def isWsChar (c : Char) : Bool :=
  c = ' ' || c = '\t' || c = '\n' || c = '\r'

/-- JavaScript `String.prototype.trim` (on the ASCII fragment): strip leading
and trailing whitespace. -/
def jsTrim (s : String) : String :=
  String.mk (((s.data.dropWhile isWsChar).reverse.dropWhile isWsChar).reverse)

/-- Uppercase one ASCII character (JavaScript `toUpperCase`, ASCII fragment). -/
def jsUpperChar (c : Char) : Char :=
  if c ≥ 'a' && c ≤ 'z' then Char.ofNat (c.toNat - 32) else c

/-- JavaScript `String.prototype.toUpperCase` (ASCII fragment). -/
def jsToUpper (s : String) : String :=
  String.mk (s.data.map jsUpperChar)

/-- JavaScript `String.prototype.startsWith`. -/
def jsStartsWith (s pre : String) : Bool :=
  pre.data.isPrefixOf s.data

/-- `String(arg)` - the string conversion used by template literals and by
`RegExp.exec` coercion. -/
def argToString : JSArg → String
  | .strA s => s
  | .errA text _ => text
  | .otherA text => text

/-- `isString(arg)` from core-functions/strings. -/
def isStringA : JSArg → Bool
  | .strA _ => true
  | _ => false

/-- The value interpolated by `logWithPrefix`:
`arg0 instanceof Error && arg0.stack ? arg0.stack : arg0` (an empty stack is
falsy, so it falls back to the error's own string conversion). -/
def errStackOrSelf : JSArg → String
  | .errA text (some st) => if st ≠ "" then st else text
  | a => argToString a

/-- `logWithPrefix` (src/logging.js lines 386-394): unless the first argument is
a string already starting with the level prefix, replace it by
`` `${logLevelPrefix} ${...}` ``; remaining arguments pass through unchanged. -/
def prefixArgs (pfx : String) : List JSArg → List JSArg
  | [] => []
  | a :: rest =>
    if isStringA a && jsStartsWith (argToString a) pfx then a :: rest
    else .strA (pfx ++ " " ++ errStackOrSelf a) :: rest

/-- Observable effect of invoking an installed `LevelFn`: `none` for the no-op,
otherwise the underlying logger method called together with its arguments. -/
def callLevelFn : LevelFn → List JSArg → Option (MethodName × List JSArg)
  | .noop, _ => none
  | .plain m, args => some (m, args)
  | .prefixed m p, args => some (m, prefixArgs p args)

/-- `resolveLoggingFunction` (src/logging.js lines 377-397): bind the named
method; skip prefix wrapping when prefixes are off or when the bound function is
`console.trace` (which emits its own prefix). -/
def resolveLoggingFunction (logger : Logger) (loggingFnName : MethodName)
    (useLogLevelPfx : Bool) (logLevelPfx : String) : LevelFn :=
  if !useLogLevelPfx || (decide (logger = .console) && decide (loggingFnName = .trace)) then
    .plain loggingFnName
  else
    .prefixed loggingFnName logLevelPfx

/-- A JavaScript property value on a target object. -/
inductive JSVal
  | undefV
  | nullV
  | boolV (b : Bool)
  | strV (s : String)
  | funcV (f : LevelFn)
  | dispatchV (logBound : LevelFn)
  | loggerV (l : Logger)
  | otherV
deriving DecidableEq, Repr

/-- JavaScript truthiness of a `JSVal`. -/
def truthyV : JSVal → Bool
  | .undefV => false
  | .nullV => false
  | .boolV b => b
  | .strV s => s ≠ ""
  | .funcV _ => true
  | .dispatchV _ => true
  | .loggerV _ => true
  | .otherV => true

/-- `isBoolean` from core-functions/booleans, applied to a property value. -/
def isBooleanV : JSVal → Bool
  | .boolV _ => true
  | _ => false

/-- `typeof v === 'function'` for a property value (the installed dispatcher is
a function too). -/
def isFunctionV : JSVal → Bool
  | .funcV _ => true
  | .dispatchV _ => true
  | _ => false

/-- A target object: the properties that `configureLogging` installs or that
`isLoggingConfigured` inspects, plus `others`, an opaque stand-in for any
unrelated properties the caller put on the object (never touched by the
library). -/
structure TargetObj where
  logLevel : JSVal := .undefV
  underlyingLoggerP : JSVal := .undefV
  warnEnabled : JSVal := .undefV
  infoEnabled : JSVal := .undefV
  debugEnabled : JSVal := .undefV
  traceEnabled : JSVal := .undefV
  error : JSVal := .undefV
  warn : JSVal := .undefV
  info : JSVal := .undefV
  debug : JSVal := .undefV
  trace : JSVal := .undefV
  log : JSVal := .undefV
  others : Nat := 0
deriving DecidableEq, Repr

/-- A value passed as the `target` argument: `null`, `undefined`, or an object. -/
inductive JSTarget
  | jsNull
  | jsUndefined
  | obj (o : TargetObj)
deriving DecidableEq, Repr

/-- `isLoggingConfigured` (src/logging.js lines 112-116).  Note the source
returns `target && ...`: a falsy target is returned as-is (so `null` yields
`null`, `undefined` yields `undefined`), while a truthy target yields the
boolean conjunction of the nine property checks. -/
def isLoggingConfigured : JSTarget → JSVal
  | .jsNull => .nullV
  | .jsUndefined => .undefV
  | .obj o =>
    .boolV (isBooleanV o.warnEnabled && isBooleanV o.infoEnabled && isBooleanV o.debugEnabled
      && isBooleanV o.traceEnabled && isFunctionV o.error && isFunctionV o.warn
      && isFunctionV o.info && isFunctionV o.debug && isFunctionV o.trace)

/-- A raw JavaScript value supplied for one of the simple option fields
(`logLevel`, `useLevelPrefixes`, `useConsoleTrace`): absent/undefined, a
string, a boolean, or any other (invalidly typed) value. -/
inductive RawVal
  | vundefined
  | vstr (s : String)
  | vbool (b : Bool)
  | vother
deriving DecidableEq, Repr

/-- A raw settings / options object as passed by the caller.  `envLogLevelName`
is restricted to absent-or-string (the library calls `.trim()` on it when it is
not blank); `underlyingLogger` is absent or a truthy logger value. -/
structure RawOptions where
  logLevel : RawVal := .vundefined
  useLevelPrefixes : RawVal := .vundefined
  envLogLevelName : Option String := none
  useConsoleTrace : RawVal := .vundefined
  underlyingLogger : Option Logger := none
deriving DecidableEq, Repr

/-- `cleanLogLevel` (src/logging.js lines 340-342): for a truthy value with a
`trim` method (i.e. a non-empty string) trim and uppercase it; anything else is
returned unchanged. -/
def cleanLogLevel : RawVal → RawVal
  | .vstr s => if s ≠ "" then .vstr (jsToUpper (jsTrim s)) else .vstr s
  | v => v

/-- The five-way switch of `isValidLogLevel` on an already-cleaned string. -/
def isValidLevelStr (s : String) : Bool :=
  s == "ERROR" || s == "WARN" || s == "INFO" || s == "DEBUG" || s == "TRACE"

/-- `isValidLogLevel` (src/logging.js lines 321-333): the cleaned value is one
of the five level strings (only strings can satisfy the `===` switch). -/
def isValidLogLevel (v : RawVal) : Bool :=
  match cleanLogLevel v with
  | .vstr s => isValidLevelStr s
  | _ => false

/-- The cleaned form of a string log level (`cleanLogLevel` on strings). -/
def cleanedLevel (s : String) : String :=
  if s ≠ "" then jsToUpper (jsTrim s) else s

/-- A cleaned settings / options record, as produced by
`toCleanSettingsOrOptions`: every surviving field is validly typed (`none`
models a deleted / absent property). -/
structure CleanOpts where
  logLevel : Option String := none
  useLevelPrefixes : Option Bool := none
  envLogLevelName : Option String := none
  useConsoleTrace : Option Bool := none
  underlyingLogger : Option Logger := none
deriving DecidableEq, Repr

/-- Lines 293-297 of `toCleanSettingsOrOptions`: keep a valid `logLevel` in
cleaned form, delete an invalid one. -/
def cleanFieldLogLevel : RawVal → Option String
  | .vstr s => if isValidLogLevel (.vstr s) then some (cleanedLevel s) else none
  | _ => none

/-- Lines 298-300 / 306-308 of `toCleanSettingsOrOptions`: keep a boolean flag,
delete a non-boolean one. -/
def cleanFieldBool : RawVal → Option Bool
  | .vbool b => some b
  | _ => none

/-- Lines 301-305 of `toCleanSettingsOrOptions`: trim a non-blank
`envLogLevelName`, delete a blank one. -/
def cleanFieldEnvName : Option String → Option String
  | some s => if jsTrim s ≠ "" then some (jsTrim s) else none
  | none => none

/-- Lines 309-312 of `toCleanSettingsOrOptions`: keep a minimum viable
`underlyingLogger`, delete (with a warning) a truthy non-viable one. -/
def cleanFieldLogger : Option Logger → Option Logger
  | some l => if isMinimumViableLogger l then some l else none
  | none => none

/-- The cleaned copy of a (truthy, object) settings / options record. -/
def cleanRecord (r : RawOptions) : CleanOpts :=
  { logLevel := cleanFieldLogLevel r.logLevel
    useLevelPrefixes := cleanFieldBool r.useLevelPrefixes
    envLogLevelName := cleanFieldEnvName r.envLogLevelName
    useConsoleTrace := cleanFieldBool r.useConsoleTrace
    underlyingLogger := cleanFieldLogger r.underlyingLogger }

/-- `toCleanSettingsOrOptions` (src/logging.js lines 288-314): `undefined` for
falsy / non-object input; otherwise a copy with each invalidly-typed field
deleted (and `logLevel` / `envLogLevelName` canonicalised). -/
def toCleanSettingsOrOptions : Option RawOptions → Option CleanOpts
  | none => none
  | some r => some (cleanRecord r)

/-- Non-replacing option choice: keep `dst`'s field when present, else take
`src`'s.  This is the field-level behaviour of core-functions `merge(src, dst)`
as used by `configureLogging` ("without replacing any existing clean
settings"). -/
def orO {α : Type} (dst src : Option α) : Option α :=
  match dst with
  | some x => some x
  | none => src

/-- `merge(src, dst)` on cleaned records: merge `src`'s fields into `dst`
without replacing any field `dst` already has. -/
def mergeOpts (src dst : CleanOpts) : CleanOpts :=
  { logLevel := orO dst.logLevel src.logLevel
    useLevelPrefixes := orO dst.useLevelPrefixes src.useLevelPrefixes
    envLogLevelName := orO dst.envLogLevelName src.envLogLevelName
    useConsoleTrace := orO dst.useConsoleTrace src.useConsoleTrace
    underlyingLogger := orO dst.underlyingLogger src.underlyingLogger }

/-- The hard-coded last-resort defaults (src/logging.js lines 99-104). -/
def defaults : CleanOpts :=
  { logLevel := some "INFO"
    useLevelPrefixes := some true
    envLogLevelName := some "LOG_LEVEL"
    useConsoleTrace := some false
    underlyingLogger := none }

/-- Modelled from the spec: `getDefaultLoggingOptions` merges the options
loaded from the local `default-options.json` file (which is not part of the
sources here) under the static defaults; per the spec the defaults payload
supplies `logLevel` INFO, `useLevelPrefixes` true, `envLogLevelName`
"LOG_LEVEL" and `useConsoleTrace` false, so the complete clean default options
coincide with `defaults`. -/
def getDefaultLoggingOptions : CleanOpts := defaults

/-- Lines 160-171 of `configureLogging`: clean both inputs, merge the clean
options into the clean settings without replacing, then fill any missing
fields from the default options. -/
def resolveSettings (settings options : Option RawOptions) : CleanOpts :=
  let s := toCleanSettingsOrOptions settings
  let o := toCleanSettingsOrOptions options
  let loggingSettings : Option CleanOpts :=
    match s with
    | some cs => some (match o with | some co => mergeOpts co cs | none => cs)
    | none => o
  match loggingSettings with
  | some ls => mergeOpts getDefaultLoggingOptions ls
  | none => getDefaultLoggingOptions

/-- Conversion of a raw option value into the stored property value. -/
def rawToJSVal : RawVal → JSVal
  | .vundefined => .undefV
  | .vstr s => .strV s
  | .vbool b => .boolV b
  | .vother => .otherV

/-- The resolved `settings.logLevel` read as a raw property value. -/
def settingsLevelRaw (s : CleanOpts) : RawVal :=
  match s.logLevel with
  | some l => .vstr l
  | none => .vundefined

/-- Lines 186-190 of `_configureLogging`: if the environment variable named by
the resolved `envLogLevelName` holds a valid log level, use its cleaned form,
else use the resolved `settings.logLevel`.  The environment is modelled as a
map from variable names to optional string values. -/
def effectiveLogLevel (s : CleanOpts) (env : String → Option String) : RawVal :=
  match s.envLogLevelName.bind env with
  | some v => if isValidLogLevel (.vstr v) then .vstr (cleanedLevel v) else settingsLevelRaw s
  | none => settingsLevelRaw s

/-- The underlying logger finally used (line 194): the configured one when it is
minimum viable, else `console`. -/
def finalLogger (s : CleanOpts) : Logger :=
  match s.underlyingLogger with
  | some l => if isMinimumViableLogger l then l else .console
  | none => .console

/-- Line 212: `traceEnabled = logLevel === LogLevel.TRACE`. -/
def traceEnabledOf (s : CleanOpts) (env : String → Option String) : Bool :=
  decide (effectiveLogLevel s env = .vstr "TRACE")

/-- Line 213: `debugEnabled = traceEnabled || logLevel === LogLevel.DEBUG`. -/
def debugEnabledOf (s : CleanOpts) (env : String → Option String) : Bool :=
  traceEnabledOf s env || decide (effectiveLogLevel s env = .vstr "DEBUG")

/-- Line 214: `infoEnabled = debugEnabled || logLevel === LogLevel.INFO`. -/
def infoEnabledOf (s : CleanOpts) (env : String → Option String) : Bool :=
  debugEnabledOf s env || decide (effectiveLogLevel s env = .vstr "INFO")

/-- Line 215: `warnEnabled = infoEnabled || logLevel === LogLevel.WARN`. -/
def warnEnabledOf (s : CleanOpts) (env : String → Option String) : Bool :=
  infoEnabledOf s env || decide (effectiveLogLevel s env = .vstr "WARN")

/-- Line 221: warn falls back to `error` when the logger has no `warn`. -/
def warnFnNameOf (logger : Logger) : MethodName :=
  if decide (logger = .console) then .warn
  else if loggerHas logger .warn then .warn else .error

/-- Line 225: info falls back to `log` when the logger has no `info`. -/
def infoFnNameOf (logger : Logger) : MethodName :=
  if decide (logger = .console) then .info
  else if loggerHas logger .info then .info else .log

/-- Line 229: debug falls back to the info function name; on console it uses
`info`. -/
def debugFnNameOf (logger : Logger) : MethodName :=
  if decide (logger = .console) then .info
  else if loggerHas logger .debug then .debug else infoFnNameOf logger

/-- Lines 233-234: trace uses `console.trace` only when `useConsoleTrace`,
otherwise falls back to the debug function name. -/
def traceFnNameOf (logger : Logger) (useConsoleTrace : Bool) : MethodName :=
  if decide (logger = .console) then (if useConsoleTrace then .trace else .info)
  else if loggerHas logger .trace then .trace else debugFnNameOf logger

/-- Line 242: `log` falls back to the info function name when the logger has no
`log` method. -/
def logFnNameOf (logger : Logger) : MethodName :=
  if decide (logger = .console) then .log
  else if loggerHas logger .log then .log else infoFnNameOf logger

/-- Lines 192-257 of `_configureLogging`: derive the enabled flags from the
effective level, resolve the five (fallback-substituted, bound, possibly
prefix-wrapped) level methods plus the bound `log` method, and write all
installed properties onto the target. -/
def installFields (t : TargetObj) (s : CleanOpts) (env : String → Option String) : TargetObj :=
  let useLevelPrefixes := s.useLevelPrefixes.getD false
  let useConsoleTrace := s.useConsoleTrace.getD false
  let logger := finalLogger s
  let error := resolveLoggingFunction logger .error useLevelPrefixes "ERROR"
  let warn := if warnEnabledOf s env then
      resolveLoggingFunction logger (warnFnNameOf logger) useLevelPrefixes "WARN"
    else .noop
  let info := if infoEnabledOf s env then
      resolveLoggingFunction logger (infoFnNameOf logger) useLevelPrefixes "INFO"
    else .noop
  let debug := if debugEnabledOf s env then
      resolveLoggingFunction logger (debugFnNameOf logger) useLevelPrefixes "DEBUG"
    else .noop
  let trace := if traceEnabledOf s env then
      resolveLoggingFunction logger (traceFnNameOf logger useConsoleTrace) useLevelPrefixes "TRACE"
    else .noop
  let logBound := if infoEnabledOf s env then
      resolveLoggingFunction logger (logFnNameOf logger) useLevelPrefixes "LOG"
    else .noop
  { t with
    logLevel := rawToJSVal (effectiveLogLevel s env)
    underlyingLoggerP := .loggerV logger
    warnEnabled := .boolV (warnEnabledOf s env)
    infoEnabled := .boolV (infoEnabledOf s env)
    debugEnabled := .boolV (debugEnabledOf s env)
    traceEnabled := .boolV (traceEnabledOf s env)
    error := .funcV error
    warn := .funcV warn
    info := .funcV info
    debug := .funcV debug
    trace := .funcV trace
    log := .dispatchV logBound }

/-- The errors `configureLogging` / `_configureLogging` can throw, plus the
TypeError raised by assigning properties to a non-object target. -/
inductive CfgError
  | notMinimumViable
  | noLogNoInfoMethod
  | typeError
deriving DecidableEq, Repr

/-- Result of a configuration call: the updated target, or a thrown error
together with the target exactly as it was at the moment of the throw. -/
inductive CfgResult
  | ok (t : JSTarget)
  | err (e : CfgError) (t : JSTarget)
deriving DecidableEq, Repr

/-- `_configureLogging` (src/logging.js lines 185-262).  The only throw (lines
201-203, an underlying logger with neither `log` nor `info`) happens before any
target mutation; a `null`/`undefined` target faults at the first property
assignment, also before any observable mutation.  The closing debug self-log
(line 259) does not change the target and is not modelled. -/
def _configureLogging (t : JSTarget) (s : CleanOpts) (env : String → Option String) : CfgResult :=
  let logger := finalLogger s
  let usingConsole := decide (logger = .console)
  let hasInfoMethod := usingConsole || loggerHas logger .info
  let hasLogMethod := usingConsole || loggerHas logger .log
  if !hasLogMethod && !hasInfoMethod then .err .noLogNoInfoMethod t
  else
    match t with
    | .obj tobj => .ok (.obj (installFields tobj s env))
    | _ => .err .typeError t

/-- Lines 152-153 of `configureLogging`: the raw (pre-cleaning) underlying
logger - `settings`'s if truthy, else `options`'s if truthy, else undefined. -/
def rawLoggerOf (settings options : Option RawOptions) : Option Logger :=
  match settings.bind RawOptions.underlyingLogger with
  | some l => some l
  | none => options.bind RawOptions.underlyingLogger

/-- `configureLogging` (src/logging.js lines 143-176): return the target as-is
when unforced and already configured; throw (before any mutation) when a
caller-supplied underlying logger is not minimum viable; otherwise clean and
merge the inputs, fill defaults, and install. -/
def configureLogging (target : JSTarget) (settings options : Option RawOptions) (force : Bool)
    (env : String → Option String) : CfgResult :=
  if !force && truthyV (isLoggingConfigured target) then .ok target
  else
    match rawLoggerOf settings options with
    | some l =>
      if !isMinimumViableLogger l then .err .notMinimumViable target
      else _configureLogging target (resolveSettings settings options) env
    | none => _configureLogging target (resolveSettings settings options) env

/-- ASCII letter test, matching the regex character class `[A-Za-z]`. -/
def isLetterChar (c : Char) : Bool :=
  (c ≥ 'A' && c ≤ 'Z') || (c ≥ 'a' && c ≤ 'z')

/-- The alternation of `levelPrefixedRegex` (src/logging.js line 18), in the
order the regex tries it. -/
def levelWords : List String := ["ERROR", "WARN", "INFO", "DEBUG", "TRACE", "LOG"]

/-- Try the level-word alternation at the current position: a word matches when
it is a literal prefix and is followed by end-of-input (group 2 stays
undefined) or by a non-letter (group 2 then matches `[^A-Za-z]+.*` from the
remainder).  The six words start with six distinct letters, so at most one can
match at a given position. -/
def matchWordsAt (cs : List Char) : Option (String × List Char) :=
  levelWords.findSome? fun w =>
    let wc := w.data
    if cs.take wc.length = wc then
      match cs.drop wc.length with
      | [] => some (w, [])
      | c :: rest => if !isLetterChar c then some (w, c :: rest) else none
    else none

/-- Leftmost match of `levelPrefixedRegex`: the regex is unanchored, and the
leading `\s*` adds no extra matches (every level word starts with a letter), so
scanning every start position left to right is exact. -/
def scanForLevel : List Char → Option (String × List Char)
  | [] => none
  | c :: rest =>
    match matchWordsAt (c :: rest) with
    | some r => some r
    | none => scanForLevel rest

/-- Group 2 of `levelPrefixedRegex` (`[^A-Za-z]+.*`) matched against the
remainder after the level word: the maximal run of non-letters, then `.`
(which does not match line terminators) up to the next newline or the end. -/
def levelRestChars (rest : List Char) : List Char :=
  let a := rest.takeWhile fun c => !isLetterChar c
  let b := (rest.drop a.length).takeWhile fun c => c ≠ '\n' && c ≠ '\r'
  a ++ b

/-- Result of `extractLogLevelAndRest`: either `[undefined, input]` (the input
passes through unchanged) or `[level, trim(match[2])]` where the trimmed rest
is `none` when the level word ended the input. -/
inductive ExtractResult
  | noLevel
  | level (w : String) (rest : Option String)
deriving DecidableEq, Repr

/-- `extractLogLevelAndRest` (src/logging.js lines 351-355).  `RegExp.exec`
coerces its argument to a string first; `trim` from core-functions leaves
`undefined` as `undefined`. -/
def extractLogLevelAndRest (input : JSArg) : ExtractResult :=
  match scanForLevel (argToString input).data with
  | none => .noLevel
  | some (w, []) => .level w none
  | some (w, c :: rest) => .level w (some (jsTrim (String.mk (levelRestChars (c :: rest)))))

/-- Errors a dispatched call can raise: a level slot on the target holds a
non-callable value, or holds the dispatcher itself (a re-entrant call the
model does not follow). -/
inductive CallError
  | notAFunction
  | selfReferential
deriving DecidableEq, Repr

/-- Result of invoking a logging call path: the observable underlying-logger
invocation (or `none` for a no-op), or a raised `CallError`. -/
inductive CallResult
  | ok (eff : Option (MethodName × List JSArg))
  | err (e : CallError)
deriving DecidableEq, Repr

/-- `self.<level>.apply(null, args)`: invoke a property value as a function. -/
def callJSVal : JSVal → List JSArg → CallResult
  | .funcV f, args => .ok (callLevelFn f args)
  | .dispatchV _, _ => .err .selfReferential
  | _, _ => .err .notAFunction

/-- `logAtLevel` from `extendLogFunction` (src/logging.js lines 435-504): on a
level-free first argument delegate all original arguments to the bound `log`
function; on an extracted level, rebuild the argument list (reattach a truthy
rest as the new first argument, or drop the first argument entirely) and
dispatch to the matching level method on `self` (the target), with `LOG` going
to the bound `log` function. -/
def logAtLevel (self : TargetObj) (logBound : LevelFn) (args : List JSArg) : CallResult :=
  match args with
  | [] => .ok (callLevelFn logBound [])
  | a0 :: rest =>
    match extractLogLevelAndRest a0 with
    | .noLevel => .ok (callLevelFn logBound (a0 :: rest))
    | .level w restOpt =>
      let args2 : List JSArg :=
        match restOpt with
        | some r => if r ≠ "" then .strA r :: rest else rest
        | none => rest
      match w with
      | "ERROR" => callJSVal self.error args2
      | "WARN" => callJSVal self.warn args2
      | "INFO" => callJSVal self.info args2
      | "DEBUG" => callJSVal self.debug args2
      | "TRACE" => callJSVal self.trace args2
      | "LOG" => .ok (callLevelFn logBound args2)
      | _ => .ok (callLevelFn logBound (a0 :: rest))

/-- Observable effect of the free `log` function: a call on the target's bound
underlying logger, or the `console.log` fallback. -/
inductive Effect
  | underlying (m : MethodName) (args : List JSArg)
  | consoleLog (args : List JSArg)
deriving DecidableEq, Repr

/-- Result of the free `log` function. -/
inductive FreeResult
  | ok (eff : Option Effect)
  | err (e : CallError)
deriving DecidableEq, Repr

/-- Lift an installed-call result into a free-`log` result. -/
def asFreeResult : CallResult → FreeResult
  | .ok eff => .ok (eff.map fun p => .underlying p.1 p.2)
  | .err e => .err e

/-- The object case of the free `log` function: use the target's own `log`
property when callable, else its `info` property, else fall back to
`console.log`. -/
def logOnObj (o : TargetObj) (args : List JSArg) : FreeResult :=
  match o.log with
  | .dispatchV d => asFreeResult (logAtLevel o d args)
  | .funcV f => .ok ((callLevelFn f args).map fun p => .underlying p.1 p.2)
  | _ =>
    match o.info with
    | .funcV f => .ok ((callLevelFn f args).map fun p => .underlying p.1 p.2)
    | .dispatchV _ => .err .selfReferential
    | _ => .ok (some (.consoleLog args))

/-- The free convenience function `log(logger, ...data)` (src/logging.js lines
405-426): use `logger.log` when callable (invoked with `this = logger`, so the
installed dispatcher sees the target itself), else `logger.info`, else fall
back to `console.log`. -/
def log (target : JSTarget) (args : List JSArg) : FreeResult :=
  match target with
  | .obj o => logOnObj o args
  | _ => .ok (some (.consoleLog args))

/-- Numeric rank of a level name under ERROR(0) < WARN(1) < INFO(2) <
DEBUG(3) < TRACE(4). -/
def levelRank : String → Option Nat
  | "ERROR" => some 0
  | "WARN" => some 1
  | "INFO" => some 2
  | "DEBUG" => some 3
  | "TRACE" => some 4
  | _ => none

/-- Spec-side field precedence: the settings value if validly typed, else the
options value if validly typed, else the static default for the field. -/
def specFieldChoice {α : Type} (sv ov : Option α) (dflt : α) : α :=
  match sv with
  | some v => v
  | none =>
    match ov with
    | some v => v
    | none => dflt

/-! ### Helper lemmas (shared by several claim proofs) -/

theorem cleanLogLevel_vstr (s : String) : cleanLogLevel (.vstr s) = .vstr (cleanedLevel s) := by
  unfold cleanLogLevel cleanedLevel
  by_cases h : s = "" <;> simp [h]

theorem isValid_vstr (s : String) :
    isValidLogLevel (.vstr s) = isValidLevelStr (cleanedLevel s) := by
  unfold isValidLogLevel
  rw [cleanLogLevel_vstr]

theorem valid_level_cases {s : String} (h : isValidLevelStr s = true) :
    s = "ERROR" ∨ s = "WARN" ∨ s = "INFO" ∨ s = "DEBUG" ∨ s = "TRACE" := by
  simp [isValidLevelStr] at h
  tauto

theorem cleanFieldLogLevel_valid {v : RawVal} {L : String} (h : cleanFieldLogLevel v = some L) :
    isValidLevelStr L = true := by
  cases v with
  | vundefined => exact Option.noConfusion h
  | vstr s =>
    simp only [cleanFieldLogLevel] at h
    split_ifs at h with hv
    rw [isValid_vstr] at hv
    rw [← Option.some.inj h]
    exact hv
  | vbool b => exact Option.noConfusion h
  | vother => exact Option.noConfusion h

theorem orO_none {α : Type} (x : Option α) : orO x none = x := by
  rcases x <;> rfl

theorem orO_some_default {α : Type} (x : Option α) (d : α) :
    orO x (some d) = some (specFieldChoice x none d) := by
  rcases x <;> rfl

theorem orO_orO_default {α : Type} (x y : Option α) (d : α) :
    orO (orO x y) (some d) = some (specFieldChoice x y d) := by
  rcases x <;> rcases y <;> rfl

/-- Field-by-field characterisation of `resolveSettings`: clean-merge-default
equals per-field "settings if valid, else options if valid, else default". -/
theorem resolveSettings_spec (S O : Option RawOptions) :
    (resolveSettings S O).logLevel =
      some (specFieldChoice (S.bind fun r => cleanFieldLogLevel r.logLevel)
        (O.bind fun r => cleanFieldLogLevel r.logLevel) "INFO") ∧
    (resolveSettings S O).useLevelPrefixes =
      some (specFieldChoice (S.bind fun r => cleanFieldBool r.useLevelPrefixes)
        (O.bind fun r => cleanFieldBool r.useLevelPrefixes) true) ∧
    (resolveSettings S O).envLogLevelName =
      some (specFieldChoice (S.bind fun r => cleanFieldEnvName r.envLogLevelName)
        (O.bind fun r => cleanFieldEnvName r.envLogLevelName) "LOG_LEVEL") ∧
    (resolveSettings S O).useConsoleTrace =
      some (specFieldChoice (S.bind fun r => cleanFieldBool r.useConsoleTrace)
        (O.bind fun r => cleanFieldBool r.useConsoleTrace) false) ∧
    (resolveSettings S O).underlyingLogger =
      orO (S.bind fun r => cleanFieldLogger r.underlyingLogger)
        (O.bind fun r => cleanFieldLogger r.underlyingLogger) := by
  rcases S with _ | rs <;> rcases O with _ | ro
  · exact ⟨rfl, rfl, rfl, rfl, rfl⟩
  · exact ⟨orO_some_default _ _, orO_some_default _ _, orO_some_default _ _,
      orO_some_default _ _, orO_none _⟩
  · exact ⟨orO_some_default _ _, orO_some_default _ _, orO_some_default _ _,
      orO_some_default _ _, rfl⟩
  · exact ⟨orO_orO_default _ _ _, orO_orO_default _ _ _, orO_orO_default _ _ _,
      orO_orO_default _ _ _, orO_none _⟩

theorem resolveSettings_logLevel_valid (S O : Option RawOptions) :
    ∃ L, (resolveSettings S O).logLevel = some L ∧ isValidLevelStr L = true := by
  refine ⟨_, (resolveSettings_spec S O).1, ?_⟩
  rcases S with _ | rs
  · rcases O with _ | ro
    · simp [specFieldChoice, isValidLevelStr]
    · rcases hO : cleanFieldLogLevel ro.logLevel with _ | L2
      · simp [hO, specFieldChoice, isValidLevelStr]
      · simpa [hO, specFieldChoice] using cleanFieldLogLevel_valid hO
  · rcases hS : cleanFieldLogLevel rs.logLevel with _ | L1
    · rcases O with _ | ro
      · simp [hS, specFieldChoice, isValidLevelStr]
      · rcases hO : cleanFieldLogLevel ro.logLevel with _ | L2
        · simp [hS, hO, specFieldChoice, isValidLevelStr]
        · simpa [hS, hO, specFieldChoice] using cleanFieldLogLevel_valid hO
    · simpa [hS, specFieldChoice] using cleanFieldLogLevel_valid hS

theorem minimumViable_hasLog {l : Logger} (h : isMinimumViableLogger l = true) :
    loggerHas l .log = true := by
  cases l with
  | console => rfl
  | obj o =>
    simp only [isMinimumViableLogger, Bool.and_eq_true] at h
    simpa [loggerHas] using h.1

theorem finalLogger_viable (s : CleanOpts) : isMinimumViableLogger (finalLogger s) = true := by
  unfold finalLogger
  rcases h : s.underlyingLogger with _ | l
  · rfl
  · show isMinimumViableLogger (if isMinimumViableLogger l = true then l else Logger.console) = true
    by_cases hM : isMinimumViableLogger l = true
    · rwa [if_pos hM]
    · rw [if_neg hM]
      rfl

/-- `_configureLogging` never takes its fatal branch: the resolved logger is
`console` or passed the minimum-viable check, so it always has a `log`
method. -/
theorem cfg_obj_ok (tobj : TargetObj) (s : CleanOpts) (env : String → Option String) :
    _configureLogging (.obj tobj) s env = .ok (.obj (installFields tobj s env)) := by
  unfold _configureLogging
  have hl := minimumViable_hasLog (finalLogger_viable s)
  simp [hl]

/-- Inversion: a `configureLogging` call that does not short-circuit on the
idempotence check and returns successfully returned the target overwritten
with the installed fields for the resolved settings. -/
theorem configureLogging_installs {tobj : TargetObj} {S O : Option RawOptions} {force : Bool}
    {env : String → Option String} {t' : JSTarget}
    (hGo : force = true ∨ truthyV (isLoggingConfigured (.obj tobj)) = false)
    (hOk : configureLogging (.obj tobj) S O force env = .ok t') :
    t' = .obj (installFields tobj (resolveSettings S O) env) := by
  unfold configureLogging at hOk
  have hcond : ¬((!force && truthyV (isLoggingConfigured (.obj tobj))) = true) := by
    rcases hGo with h | h <;> simp [h]
  rw [if_neg hcond] at hOk
  split at hOk
  · split at hOk
    · exact CfgResult.noConfusion hOk
    · rw [cfg_obj_ok] at hOk
      exact (CfgResult.ok.inj hOk).symm
  · rw [cfg_obj_ok] at hOk
    exact (CfgResult.ok.inj hOk).symm

theorem settingsLevelRaw_of {s : CleanOpts} {L : String} (hF : s.logLevel = some L) :
    settingsLevelRaw s = .vstr L := by
  unfold settingsLevelRaw
  rw [hF]

theorem effectiveLogLevel_valid {s : CleanOpts} (env : String → Option String) {L : String}
    (hF : s.logLevel = some L) (hV : isValidLevelStr L = true) :
    ∃ Lv, effectiveLogLevel s env = .vstr Lv ∧ isValidLevelStr Lv = true := by
  unfold effectiveLogLevel
  split
  · split_ifs with hv
    · exact ⟨cleanedLevel _, rfl, by rwa [← isValid_vstr]⟩
    · exact ⟨L, settingsLevelRaw_of hF, hV⟩
  · exact ⟨L, settingsLevelRaw_of hF, hV⟩

theorem resolveLoggingFunction_ne_noop (l : Logger) (n : MethodName) (b : Bool) (p : String) :
    resolveLoggingFunction l n b p ≠ .noop := by
  unfold resolveLoggingFunction
  split <;> simp

/-! ### Projection lemmas for the installed fields -/

theorem installFields_logLevel (t : TargetObj) (s : CleanOpts) (env : String → Option String) :
    (installFields t s env).logLevel = rawToJSVal (effectiveLogLevel s env) := rfl

theorem installFields_underlying (t : TargetObj) (s : CleanOpts) (env : String → Option String) :
    (installFields t s env).underlyingLoggerP = .loggerV (finalLogger s) := rfl

theorem installFields_warnEnabled (t : TargetObj) (s : CleanOpts) (env : String → Option String) :
    (installFields t s env).warnEnabled = .boolV (warnEnabledOf s env) := rfl

theorem installFields_infoEnabled (t : TargetObj) (s : CleanOpts) (env : String → Option String) :
    (installFields t s env).infoEnabled = .boolV (infoEnabledOf s env) := rfl

theorem installFields_debugEnabled (t : TargetObj) (s : CleanOpts) (env : String → Option String) :
    (installFields t s env).debugEnabled = .boolV (debugEnabledOf s env) := rfl

theorem installFields_traceEnabled (t : TargetObj) (s : CleanOpts) (env : String → Option String) :
    (installFields t s env).traceEnabled = .boolV (traceEnabledOf s env) := rfl

theorem installFields_error (t : TargetObj) (s : CleanOpts) (env : String → Option String) :
    (installFields t s env).error =
      .funcV (resolveLoggingFunction (finalLogger s) .error (s.useLevelPrefixes.getD false)
        "ERROR") := rfl

theorem installFields_warn (t : TargetObj) (s : CleanOpts) (env : String → Option String) :
    (installFields t s env).warn =
      .funcV (if warnEnabledOf s env then
          resolveLoggingFunction (finalLogger s) (warnFnNameOf (finalLogger s))
            (s.useLevelPrefixes.getD false) "WARN"
        else .noop) := rfl

theorem installFields_info (t : TargetObj) (s : CleanOpts) (env : String → Option String) :
    (installFields t s env).info =
      .funcV (if infoEnabledOf s env then
          resolveLoggingFunction (finalLogger s) (infoFnNameOf (finalLogger s))
            (s.useLevelPrefixes.getD false) "INFO"
        else .noop) := rfl

theorem installFields_debug (t : TargetObj) (s : CleanOpts) (env : String → Option String) :
    (installFields t s env).debug =
      .funcV (if debugEnabledOf s env then
          resolveLoggingFunction (finalLogger s) (debugFnNameOf (finalLogger s))
            (s.useLevelPrefixes.getD false) "DEBUG"
        else .noop) := rfl

theorem installFields_trace (t : TargetObj) (s : CleanOpts) (env : String → Option String) :
    (installFields t s env).trace =
      .funcV (if traceEnabledOf s env then
          resolveLoggingFunction (finalLogger s) (traceFnNameOf (finalLogger s)
            (s.useConsoleTrace.getD false)) (s.useLevelPrefixes.getD false) "TRACE"
        else .noop) := rfl

theorem installFields_log (t : TargetObj) (s : CleanOpts) (env : String → Option String) :
    (installFields t s env).log =
      .dispatchV (if infoEnabledOf s env then
          resolveLoggingFunction (finalLogger s) (logFnNameOf (finalLogger s))
            (s.useLevelPrefixes.getD false) "LOG"
        else .noop) := rfl

theorem installFields_others (t : TargetObj) (s : CleanOpts) (env : String → Option String) :
    (installFields t s env).others = t.others := rfl

theorem cfg_nonobj_not_ok {t : JSTarget} {s : CleanOpts} {env : String → Option String}
    {t1 : JSTarget} (h : ∀ o, t ≠ .obj o) : _configureLogging t s env ≠ CfgResult.ok t1 := by
  intro hOk
  simp only [_configureLogging] at hOk
  split at hOk
  · exact CfgResult.noConfusion hOk
  · cases t with
    | obj o => exact h o rfl
    | jsNull => exact CfgResult.noConfusion hOk
    | jsUndefined => exact CfgResult.noConfusion hOk

/-- A successful `configureLogging` call either short-circuited on the
idempotence check or installed onto an object target. -/
theorem configureLogging_ok_shape {t : JSTarget} {S O : Option RawOptions} {force : Bool}
    {env : String → Option String} {t1 : JSTarget}
    (hOk : configureLogging t S O force env = .ok t1) :
    (t1 = t ∧ (!force && truthyV (isLoggingConfigured t)) = true) ∨
      ∃ tobj, t = .obj tobj ∧ t1 = .obj (installFields tobj (resolveSettings S O) env) := by
  unfold configureLogging at hOk
  by_cases hc : (!force && truthyV (isLoggingConfigured t)) = true
  · rw [if_pos hc] at hOk
    exact Or.inl ⟨(CfgResult.ok.inj hOk).symm, hc⟩
  · rw [if_neg hc] at hOk
    cases t with
    | obj tobj =>
      refine Or.inr ⟨tobj, rfl, ?_⟩
      split at hOk
      · split at hOk
        · exact CfgResult.noConfusion hOk
        · rw [cfg_obj_ok] at hOk
          exact (CfgResult.ok.inj hOk).symm
      · rw [cfg_obj_ok] at hOk
        exact (CfgResult.ok.inj hOk).symm
    | jsNull =>
      exfalso
      split at hOk
      · split at hOk
        · exact CfgResult.noConfusion hOk
        · exact cfg_nonobj_not_ok (fun o h => JSTarget.noConfusion h) hOk
      · exact cfg_nonobj_not_ok (fun o h => JSTarget.noConfusion h) hOk
    | jsUndefined =>
      exfalso
      split at hOk
      · split at hOk
        · exact CfgResult.noConfusion hOk
        · exact cfg_nonobj_not_ok (fun o h => JSTarget.noConfusion h) hOk
      · exact cfg_nonobj_not_ok (fun o h => JSTarget.noConfusion h) hOk

/-- Every installed target passes the nine-property check. -/
theorem installFields_configured (t : TargetObj) (s : CleanOpts) (env : String → Option String) :
    isLoggingConfigured (.obj (installFields t s env)) = .boolV true := rfl

theorem notViable_of {l : Logger} (hNC : l ≠ .console)
    (hLacks : loggerHas l .log = false ∨ loggerHas l .error = false) :
    isMinimumViableLogger l = false := by
  cases l with
  | console => exact absurd rfl hNC
  | obj o =>
    rcases hLacks with h | h <;> simp [loggerHas] at h <;>
      simp [isMinimumViableLogger, h]

/-! ### Claim theorems -/

/-- C1: for every target successfully configured by `configureLogging` (a call
that passes the idempotence check and returns successfully), the installed
enabled flags are monotonic in the resolved level's rank under ERROR(0) <
WARN(1) < INFO(2) < DEBUG(3) < TRACE(4): each non-error level is enabled iff
its rank is at most the resolved level's rank, hence trace implies debug
implies info implies warn, and the installed error method is never a no-op. -/
theorem c1_monotonic_enablement {tobj t' : TargetObj} {S O : Option RawOptions} {force : Bool}
    {env : String → Option String}
    (hGo : force = true ∨ truthyV (isLoggingConfigured (.obj tobj)) = false)
    (hOk : configureLogging (.obj tobj) S O force env = .ok (.obj t')) :
    ∃ L r, t'.logLevel = .strV L ∧ levelRank L = some r ∧
      t'.warnEnabled = .boolV (decide (1 ≤ r)) ∧
      t'.infoEnabled = .boolV (decide (2 ≤ r)) ∧
      t'.debugEnabled = .boolV (decide (3 ≤ r)) ∧
      t'.traceEnabled = .boolV (decide (4 ≤ r)) ∧
      (t'.traceEnabled = .boolV true → t'.debugEnabled = .boolV true) ∧
      (t'.debugEnabled = .boolV true → t'.infoEnabled = .boolV true) ∧
      (t'.infoEnabled = .boolV true → t'.warnEnabled = .boolV true) ∧
      ∃ f, t'.error = .funcV f ∧ f ≠ .noop := by
  have ht : t' = installFields tobj (resolveSettings S O) env :=
    JSTarget.obj.inj (configureLogging_installs hGo hOk)
  subst ht
  obtain ⟨L0, hL0, hL0v⟩ := resolveSettings_logLevel_valid S O
  obtain ⟨Lv, hEff, hEv⟩ := effectiveLogLevel_valid env hL0 hL0v
  refine ⟨Lv, ?_⟩
  rcases valid_level_cases hEv with h | h | h | h | h <;> subst h
  · have hT : traceEnabledOf (resolveSettings S O) env = false := by
      unfold traceEnabledOf; rw [hEff]; decide
    have hD : debugEnabledOf (resolveSettings S O) env = false := by
      unfold debugEnabledOf; rw [hT, hEff]; decide
    have hI : infoEnabledOf (resolveSettings S O) env = false := by
      unfold infoEnabledOf; rw [hD, hEff]; decide
    have hW : warnEnabledOf (resolveSettings S O) env = false := by
      unfold warnEnabledOf; rw [hI, hEff]; decide
    refine ⟨0, ?_, by decide, ?_, ?_, ?_, ?_, ?_, ?_, ?_, ?_⟩
    · rw [installFields_logLevel, hEff]; rfl
    · rw [installFields_warnEnabled, hW]; rfl
    · rw [installFields_infoEnabled, hI]; rfl
    · rw [installFields_debugEnabled, hD]; rfl
    · rw [installFields_traceEnabled, hT]; rfl
    · rw [installFields_traceEnabled, installFields_debugEnabled, hT, hD]; decide
    · rw [installFields_debugEnabled, installFields_infoEnabled, hD, hI]; decide
    · rw [installFields_infoEnabled, installFields_warnEnabled, hI, hW]; decide
    · rw [installFields_error]; exact ⟨_, rfl, resolveLoggingFunction_ne_noop _ _ _ _⟩
  · have hT : traceEnabledOf (resolveSettings S O) env = false := by
      unfold traceEnabledOf; rw [hEff]; decide
    have hD : debugEnabledOf (resolveSettings S O) env = false := by
      unfold debugEnabledOf; rw [hT, hEff]; decide
    have hI : infoEnabledOf (resolveSettings S O) env = false := by
      unfold infoEnabledOf; rw [hD, hEff]; decide
    have hW : warnEnabledOf (resolveSettings S O) env = true := by
      unfold warnEnabledOf; rw [hI, hEff]; decide
    refine ⟨1, ?_, by decide, ?_, ?_, ?_, ?_, ?_, ?_, ?_, ?_⟩
    · rw [installFields_logLevel, hEff]; rfl
    · rw [installFields_warnEnabled, hW]; rfl
    · rw [installFields_infoEnabled, hI]; rfl
    · rw [installFields_debugEnabled, hD]; rfl
    · rw [installFields_traceEnabled, hT]; rfl
    · rw [installFields_traceEnabled, installFields_debugEnabled, hT, hD]; decide
    · rw [installFields_debugEnabled, installFields_infoEnabled, hD, hI]; decide
    · rw [installFields_infoEnabled, installFields_warnEnabled, hI, hW]; decide
    · rw [installFields_error]; exact ⟨_, rfl, resolveLoggingFunction_ne_noop _ _ _ _⟩
  · have hT : traceEnabledOf (resolveSettings S O) env = false := by
      unfold traceEnabledOf; rw [hEff]; decide
    have hD : debugEnabledOf (resolveSettings S O) env = false := by
      unfold debugEnabledOf; rw [hT, hEff]; decide
    have hI : infoEnabledOf (resolveSettings S O) env = true := by
      unfold infoEnabledOf; rw [hD, hEff]; decide
    have hW : warnEnabledOf (resolveSettings S O) env = true := by
      unfold warnEnabledOf; rw [hI, hEff]; decide
    refine ⟨2, ?_, by decide, ?_, ?_, ?_, ?_, ?_, ?_, ?_, ?_⟩
    · rw [installFields_logLevel, hEff]; rfl
    · rw [installFields_warnEnabled, hW]; rfl
    · rw [installFields_infoEnabled, hI]; rfl
    · rw [installFields_debugEnabled, hD]; rfl
    · rw [installFields_traceEnabled, hT]; rfl
    · rw [installFields_traceEnabled, installFields_debugEnabled, hT, hD]; decide
    · rw [installFields_debugEnabled, installFields_infoEnabled, hD, hI]; decide
    · rw [installFields_infoEnabled, installFields_warnEnabled, hI, hW]; decide
    · rw [installFields_error]; exact ⟨_, rfl, resolveLoggingFunction_ne_noop _ _ _ _⟩
  · have hT : traceEnabledOf (resolveSettings S O) env = false := by
      unfold traceEnabledOf; rw [hEff]; decide
    have hD : debugEnabledOf (resolveSettings S O) env = true := by
      unfold debugEnabledOf; rw [hT, hEff]; decide
    have hI : infoEnabledOf (resolveSettings S O) env = true := by
      unfold infoEnabledOf; rw [hD, hEff]; decide
    have hW : warnEnabledOf (resolveSettings S O) env = true := by
      unfold warnEnabledOf; rw [hI, hEff]; decide
    refine ⟨3, ?_, by decide, ?_, ?_, ?_, ?_, ?_, ?_, ?_, ?_⟩
    · rw [installFields_logLevel, hEff]; rfl
    · rw [installFields_warnEnabled, hW]; rfl
    · rw [installFields_infoEnabled, hI]; rfl
    · rw [installFields_debugEnabled, hD]; rfl
    · rw [installFields_traceEnabled, hT]; rfl
    · rw [installFields_traceEnabled, installFields_debugEnabled, hT, hD]; decide
    · rw [installFields_debugEnabled, installFields_infoEnabled, hD, hI]; decide
    · rw [installFields_infoEnabled, installFields_warnEnabled, hI, hW]; decide
    · rw [installFields_error]; exact ⟨_, rfl, resolveLoggingFunction_ne_noop _ _ _ _⟩
  · have hT : traceEnabledOf (resolveSettings S O) env = true := by
      unfold traceEnabledOf; rw [hEff]; decide
    have hD : debugEnabledOf (resolveSettings S O) env = true := by
      unfold debugEnabledOf; rw [hT, hEff]; decide
    have hI : infoEnabledOf (resolveSettings S O) env = true := by
      unfold infoEnabledOf; rw [hD, hEff]; decide
    have hW : warnEnabledOf (resolveSettings S O) env = true := by
      unfold warnEnabledOf; rw [hI, hEff]; decide
    refine ⟨4, ?_, by decide, ?_, ?_, ?_, ?_, ?_, ?_, ?_, ?_⟩
    · rw [installFields_logLevel, hEff]; rfl
    · rw [installFields_warnEnabled, hW]; rfl
    · rw [installFields_infoEnabled, hI]; rfl
    · rw [installFields_debugEnabled, hD]; rfl
    · rw [installFields_traceEnabled, hT]; rfl
    · rw [installFields_traceEnabled, installFields_debugEnabled, hT, hD]; decide
    · rw [installFields_debugEnabled, installFields_infoEnabled, hD, hI]; decide
    · rw [installFields_infoEnabled, installFields_warnEnabled, hI, hW]; decide
    · rw [installFields_error]; exact ⟨_, rfl, resolveLoggingFunction_ne_noop _ _ _ _⟩

/-- The target produced by forcibly configuring `{}` with `logLevel: 'warn'`
and no environment override (used as the C1 witness input). -/
def warnConfiguredTarget : TargetObj :=
  { logLevel := .strV "WARN"
    underlyingLoggerP := .loggerV .console
    warnEnabled := .boolV true
    infoEnabled := .boolV false
    debugEnabled := .boolV false
    traceEnabled := .boolV false
    error := .funcV (.prefixed .error "ERROR")
    warn := .funcV (.prefixed .warn "WARN")
    info := .funcV .noop
    debug := .funcV .noop
    trace := .funcV .noop
    log := .dispatchV .noop }

/-- Witness for C1 at a concrete input: `{}` forcibly configured with
`logLevel: 'warn'`. -/
theorem c1_monotonic_enablement_witness :
    ∃ L r, warnConfiguredTarget.logLevel = .strV L ∧ levelRank L = some r ∧
      warnConfiguredTarget.warnEnabled = .boolV (decide (1 ≤ r)) ∧
      warnConfiguredTarget.infoEnabled = .boolV (decide (2 ≤ r)) ∧
      warnConfiguredTarget.debugEnabled = .boolV (decide (3 ≤ r)) ∧
      warnConfiguredTarget.traceEnabled = .boolV (decide (4 ≤ r)) ∧
      (warnConfiguredTarget.traceEnabled = .boolV true →
        warnConfiguredTarget.debugEnabled = .boolV true) ∧
      (warnConfiguredTarget.debugEnabled = .boolV true →
        warnConfiguredTarget.infoEnabled = .boolV true) ∧
      (warnConfiguredTarget.infoEnabled = .boolV true →
        warnConfiguredTarget.warnEnabled = .boolV true) ∧
      ∃ f, warnConfiguredTarget.error = .funcV f ∧ f ≠ .noop :=
  @c1_monotonic_enablement {} warnConfiguredTarget (some { logLevel := .vstr "warn" }) none true
    (fun _ => none) (Or.inl rfl) (by decide)

/-- C2: once a forced `configureLogging` call has completed successfully, any
subsequent unforced call - with arbitrary settings, options and environment -
returns the very same target value, so no installed property changes. -/
theorem c2_unforced_reconfigure_noop {t t1 : JSTarget} {S O : Option RawOptions}
    {env : String → Option String}
    (hOk : configureLogging t S O true env = .ok t1) :
    ∀ (S2 O2 : Option RawOptions) (env2 : String → Option String),
      configureLogging t1 S2 O2 false env2 = .ok t1 := by
  intro S2 O2 env2
  rcases configureLogging_ok_shape hOk with ⟨_, hc⟩ | ⟨tobj, hT, hT1⟩
  · simp at hc
  · subst hT1
    unfold configureLogging
    rw [if_pos (by rw [installFields_configured]; rfl)]

/-- Witness for C2: `{}` forcibly configured at TRACE, then reconfigured
unforced at ERROR - the TRACE configuration survives unchanged. -/
theorem c2_unforced_reconfigure_noop_witness :
    configureLogging
        (.obj { logLevel := .strV "TRACE"
                underlyingLoggerP := .loggerV .console
                warnEnabled := .boolV true
                infoEnabled := .boolV true
                debugEnabled := .boolV true
                traceEnabled := .boolV true
                error := .funcV (.prefixed .error "ERROR")
                warn := .funcV (.prefixed .warn "WARN")
                info := .funcV (.prefixed .info "INFO")
                debug := .funcV (.prefixed .info "DEBUG")
                trace := .funcV (.prefixed .info "TRACE")
                log := .dispatchV (.prefixed .log "LOG") })
        (some { logLevel := .vstr "ERROR" }) none false (fun _ => none) =
      .ok (.obj { logLevel := .strV "TRACE"
                  underlyingLoggerP := .loggerV .console
                  warnEnabled := .boolV true
                  infoEnabled := .boolV true
                  debugEnabled := .boolV true
                  traceEnabled := .boolV true
                  error := .funcV (.prefixed .error "ERROR")
                  warn := .funcV (.prefixed .warn "WARN")
                  info := .funcV (.prefixed .info "INFO")
                  debug := .funcV (.prefixed .info "DEBUG")
                  trace := .funcV (.prefixed .info "TRACE")
                  log := .dispatchV (.prefixed .log "LOG") }) :=
  @c2_unforced_reconfigure_noop (.obj {})
    (.obj { logLevel := .strV "TRACE"
            underlyingLoggerP := .loggerV .console
            warnEnabled := .boolV true
            infoEnabled := .boolV true
            debugEnabled := .boolV true
            traceEnabled := .boolV true
            error := .funcV (.prefixed .error "ERROR")
            warn := .funcV (.prefixed .warn "WARN")
            info := .funcV (.prefixed .info "INFO")
            debug := .funcV (.prefixed .info "DEBUG")
            trace := .funcV (.prefixed .info "TRACE")
            log := .dispatchV (.prefixed .log "LOG") })
    (some { logLevel := .vstr "trace" }) none (fun _ => none) (by decide)
    (some { logLevel := .vstr "ERROR" }) none (fun _ => none)

/-- C3: whenever a `configureLogging` call proceeds to installation and the
environment variable named by the resolved `envLogLevelName` holds a valid log
level, the installed `logLevel` is that environment value in canonical form,
regardless of the levels in settings, options, defaults or the force flag. -/
theorem c3_env_level_precedence {tobj t' : TargetObj} {S O : Option RawOptions} {force : Bool}
    {env : String → Option String} {name v : String}
    (hGo : force = true ∨ truthyV (isLoggingConfigured (.obj tobj)) = false)
    (hOk : configureLogging (.obj tobj) S O force env = .ok (.obj t'))
    (hName : (resolveSettings S O).envLogLevelName = some name)
    (hEnv : env name = some v)
    (hValid : isValidLogLevel (.vstr v) = true) :
    t'.logLevel = .strV (cleanedLevel v) := by
  have ht : t' = installFields tobj (resolveSettings S O) env :=
    JSTarget.obj.inj (configureLogging_installs hGo hOk)
  subst ht
  rw [installFields_logLevel]
  unfold effectiveLogLevel
  rw [hName, Option.some_bind, hEnv]
  show rawToJSVal (if isValidLogLevel (.vstr v) = true then .vstr (cleanedLevel v)
    else settingsLevelRaw (resolveSettings S O)) = .strV (cleanedLevel v)
  rw [if_pos hValid]
  rfl

/-- Witness for C3: settings ask for ERROR but the environment holds `debug`,
so the installed level is `DEBUG`. -/
theorem c3_env_level_precedence_witness :
    (installFields {} (resolveSettings
        (some { logLevel := .vstr "ERROR", envLogLevelName := some "LL" }) none)
      (fun _ => some "debug")).logLevel = .strV (cleanedLevel "debug") :=
  @c3_env_level_precedence {}
    (installFields {} (resolveSettings
      (some { logLevel := .vstr "ERROR", envLogLevelName := some "LL" }) none)
      (fun _ => some "debug"))
    (some { logLevel := .vstr "ERROR", envLogLevelName := some "LL" }) none true
    (fun _ => some "debug") "LL" "debug" (Or.inl rfl) (by decide) (by decide) rfl (by decide)

/-- C4: a truthy caller-supplied underlying logger that is not `console` and
lacks a `log` or an `error` method makes `configureLogging` throw before any
mutation (the error result carries the target exactly as it was), so a
previously unconfigured target remains unconfigured. -/
theorem c4_nonviable_logger_fatal {t : JSTarget} {S O : Option RawOptions} {force : Bool}
    {env : String → Option String} {l : Logger}
    (hGo : force = true ∨ truthyV (isLoggingConfigured t) = false)
    (hL : rawLoggerOf S O = some l)
    (hNC : l ≠ .console)
    (hLacks : loggerHas l .log = false ∨ loggerHas l .error = false) :
    configureLogging t S O force env = .err .notMinimumViable t := by
  unfold configureLogging
  rw [if_neg (by rcases hGo with h | h <;> simp [h]), hL]
  show (if (!isMinimumViableLogger l) = true then CfgResult.err .notMinimumViable t
    else _configureLogging t (resolveSettings S O) env) = _
  rw [notViable_of hNC hLacks]
  rfl

/-- Witness for C4: an unconfigured `{}` with a logger exposing only `error`
(no `log`): the call fails fatally and the target stays as it was. -/
theorem c4_nonviable_logger_fatal_witness :
    configureLogging (.obj {})
        (some { underlyingLogger := some (.obj ⟨true, false, false, false, false, false⟩) })
        none false (fun _ => none) =
      .err .notMinimumViable (.obj {}) :=
  @c4_nonviable_logger_fatal (.obj {})
    (some { underlyingLogger := some (.obj ⟨true, false, false, false, false, false⟩) })
    none false (fun _ => none) (.obj ⟨true, false, false, false, false, false⟩)
    (Or.inr (by decide)) (by decide) (by decide) (Or.inl (by decide))

/-- C5: for every settings/options pair, each configuration field resolves to
the settings value if validly typed, else the options value if validly typed,
else the static default (INFO, true, "LOG_LEVEL", false, and no underlying
logger); invalidly-typed values are discarded by the per-field cleaners. -/
theorem c5_field_precedence (S O : Option RawOptions) :
    (resolveSettings S O).logLevel =
      some (specFieldChoice (S.bind fun r => cleanFieldLogLevel r.logLevel)
        (O.bind fun r => cleanFieldLogLevel r.logLevel) "INFO") ∧
    (resolveSettings S O).useLevelPrefixes =
      some (specFieldChoice (S.bind fun r => cleanFieldBool r.useLevelPrefixes)
        (O.bind fun r => cleanFieldBool r.useLevelPrefixes) true) ∧
    (resolveSettings S O).envLogLevelName =
      some (specFieldChoice (S.bind fun r => cleanFieldEnvName r.envLogLevelName)
        (O.bind fun r => cleanFieldEnvName r.envLogLevelName) "LOG_LEVEL") ∧
    (resolveSettings S O).useConsoleTrace =
      some (specFieldChoice (S.bind fun r => cleanFieldBool r.useConsoleTrace)
        (O.bind fun r => cleanFieldBool r.useConsoleTrace) false) ∧
    (resolveSettings S O).underlyingLogger =
      orO (S.bind fun r => cleanFieldLogger r.underlyingLogger)
        (O.bind fun r => cleanFieldLogger r.underlyingLogger) :=
  resolveSettings_spec S O

/-- The six-method stub logger used by the test suite (error, warn, info,
debug, trace and log all present). -/
def stubLoggerSix : Logger := .obj ⟨true, true, true, true, true, true⟩

/-- The five-level-method stub of the spec scenario: error, warn, info, debug
and trace present, but no `log` method. -/
def stubLoggerFive : Logger := .obj ⟨true, true, true, true, true, false⟩

/-- The target produced by configuring `{}` with
`{logLevel: 'debug', useLevelPrefixes: true, underlyingLogger: stubLoggerSix}`
and no environment override. -/
def debugStubTarget : TargetObj :=
  { logLevel := .strV "DEBUG"
    underlyingLoggerP := .loggerV stubLoggerSix
    warnEnabled := .boolV true
    infoEnabled := .boolV true
    debugEnabled := .boolV true
    traceEnabled := .boolV false
    error := .funcV (.prefixed .error "ERROR")
    warn := .funcV (.prefixed .warn "WARN")
    info := .funcV (.prefixed .info "INFO")
    debug := .funcV (.prefixed .debug "DEBUG")
    trace := .funcV .noop
    log := .dispatchV (.prefixed .log "LOG") }

/-- Counterexample to C6 as stated: with a stub exposing exactly the five level
methods (and hence no `log` method), the spec scenario's configure call fails
the minimum-viable-logger check and throws instead of installing anything, so
no enabled flags or methods are ever configured. -/
theorem c6_counterexample :
    configureLogging (.obj {})
        (some { logLevel := .vstr "debug", useLevelPrefixes := .vbool true,
                underlyingLogger := some stubLoggerFive })
        none false (fun _ => none) =
      .err .notMinimumViable (.obj {}) := by decide

/-- C6 (amended): every disabled level among warn/info/debug/trace installs the
no-op (whose invocation has no observable effect); and the spec scenario holds
once its stub also carries the `log` method required by the
minimum-viable-logger contract: `{}` configured with `{logLevel: 'debug',
useLevelPrefixes: true}` over the six-method stub gets `traceEnabled = false`,
`debugEnabled = true`, a no-op `trace`, and a `debug` that invokes the stub's
debug with first argument `"DEBUG x"`. -/
theorem c6_disabled_levels_noop {tobj t' : TargetObj} {S O : Option RawOptions} {force : Bool}
    {env : String → Option String}
    (hGo : force = true ∨ truthyV (isLoggingConfigured (.obj tobj)) = false)
    (hOk : configureLogging (.obj tobj) S O force env = .ok (.obj t')) :
    (t'.warnEnabled = .boolV false → t'.warn = .funcV .noop) ∧
    (t'.infoEnabled = .boolV false → t'.info = .funcV .noop) ∧
    (t'.debugEnabled = .boolV false → t'.debug = .funcV .noop) ∧
    (t'.traceEnabled = .boolV false → t'.trace = .funcV .noop) ∧
    (∀ args, callLevelFn .noop args = none) ∧
    configureLogging (.obj {})
        (some { logLevel := .vstr "debug", useLevelPrefixes := .vbool true,
                underlyingLogger := some stubLoggerSix })
        none false (fun _ => none) =
      .ok (.obj debugStubTarget) ∧
    debugStubTarget.traceEnabled = .boolV false ∧
    debugStubTarget.debugEnabled = .boolV true ∧
    debugStubTarget.trace = .funcV .noop ∧
    callLevelFn .noop [.strA "x"] = none ∧
    debugStubTarget.debug = .funcV (.prefixed .debug "DEBUG") ∧
    callLevelFn (.prefixed .debug "DEBUG") [.strA "x"] = some (.debug, [.strA "DEBUG x"]) := by
  have ht : t' = installFields tobj (resolveSettings S O) env :=
    JSTarget.obj.inj (configureLogging_installs hGo hOk)
  subst ht
  refine ⟨?_, ?_, ?_, ?_, fun args => rfl, by decide, by decide, by decide, by decide, rfl,
    by decide, by decide⟩
  · intro h
    rw [installFields_warnEnabled] at h
    have hb := JSVal.boolV.inj h
    rw [installFields_warn, if_neg (by simp [hb])]
  · intro h
    rw [installFields_infoEnabled] at h
    have hb := JSVal.boolV.inj h
    rw [installFields_info, if_neg (by simp [hb])]
  · intro h
    rw [installFields_debugEnabled] at h
    have hb := JSVal.boolV.inj h
    rw [installFields_debug, if_neg (by simp [hb])]
  · intro h
    rw [installFields_traceEnabled] at h
    have hb := JSVal.boolV.inj h
    rw [installFields_trace, if_neg (by simp [hb])]

/-- Witness for the amended C6, at the scenario input itself. -/
theorem c6_disabled_levels_noop_witness :
    ((debugStubTarget.warnEnabled = JSVal.boolV false →
        debugStubTarget.warn = .funcV .noop) ∧
      (debugStubTarget.infoEnabled = .boolV false → debugStubTarget.info = .funcV .noop) ∧
      (debugStubTarget.debugEnabled = .boolV false → debugStubTarget.debug = .funcV .noop) ∧
      (debugStubTarget.traceEnabled = .boolV false → debugStubTarget.trace = .funcV .noop) ∧
      (∀ args, callLevelFn .noop args = none) ∧
      configureLogging (.obj {})
          (some { logLevel := .vstr "debug", useLevelPrefixes := .vbool true,
                  underlyingLogger := some stubLoggerSix })
          none false (fun _ => none) =
        .ok (.obj debugStubTarget) ∧
      debugStubTarget.traceEnabled = .boolV false ∧
      debugStubTarget.debugEnabled = .boolV true ∧
      debugStubTarget.trace = .funcV .noop ∧
      callLevelFn .noop [.strA "x"] = none ∧
      debugStubTarget.debug = .funcV (.prefixed .debug "DEBUG") ∧
      callLevelFn (.prefixed .debug "DEBUG") [.strA "x"] =
        some (.debug, [.strA "DEBUG x"])) :=
  @c6_disabled_levels_noop {} debugStubTarget
    (some { logLevel := .vstr "debug", useLevelPrefixes := .vbool true,
            underlyingLogger := some stubLoggerSix })
    none false (fun _ => none) (Or.inr (by decide)) (by decide)

theorem getD_false_true {o : Option Bool} (h : o.getD false = true) : o = some true := by
  cases o with
  | none => simp at h
  | some b =>
    cases b with
    | false => simp at h
    | true => rfl

theorem resolveLoggingFunction_with_pfx (l : Logger) (n : MethodName) (p : String)
    (h : ¬(l = .console ∧ n = .trace)) :
    resolveLoggingFunction l n true p = .prefixed n p := by
  have hcond : ¬((!true || (decide (l = Logger.console) && decide (n = MethodName.trace)))
      = true) := by
    simp only [Bool.not_true, Bool.false_or, Bool.and_eq_true, decide_eq_true_eq]
    exact h
  unfold resolveLoggingFunction
  rw [if_neg hcond]

theorem warnFnNameOf_ne_trace (l : Logger) : warnFnNameOf l ≠ .trace := by
  unfold warnFnNameOf
  split
  · simp
  · split <;> simp

theorem infoFnNameOf_ne_trace (l : Logger) : infoFnNameOf l ≠ .trace := by
  unfold infoFnNameOf
  split
  · simp
  · split <;> simp

/-- The target produced by forcibly configuring `{}` with
`{logLevel: 'TRACE', useLevelPrefixes: true, useConsoleTrace: true}` over the
default console logger. -/
def consoleTraceTarget : TargetObj :=
  { logLevel := .strV "TRACE"
    underlyingLoggerP := .loggerV .console
    warnEnabled := .boolV true
    infoEnabled := .boolV true
    debugEnabled := .boolV true
    traceEnabled := .boolV true
    error := .funcV (.prefixed .error "ERROR")
    warn := .funcV (.prefixed .warn "WARN")
    info := .funcV (.prefixed .info "INFO")
    debug := .funcV (.prefixed .info "DEBUG")
    trace := .funcV (.plain .trace)
    log := .dispatchV (.prefixed .log "LOG") }

/-- Counterexample to C7 as stated: with `useLevelPrefixes: true`,
`useConsoleTrace: true` and level TRACE over console, the installed trace
method is the bare bound `console.trace`: calling it with `"x"` (which does not
start with `"TRACE"`) passes `"x"` through without prepending the prefix. -/
theorem c7_counterexample :
    configureLogging (.obj {})
        (some { logLevel := .vstr "TRACE", useLevelPrefixes := .vbool true,
                useConsoleTrace := .vbool true })
        none true (fun _ => none) =
      .ok (.obj consoleTraceTarget) ∧
    consoleTraceTarget.trace = .funcV (.plain .trace) ∧
    callLevelFn (.plain .trace) [.strA "x"] = some (.trace, [.strA "x"]) ∧
    jsStartsWith "x" "TRACE" = false ∧
    [JSArg.strA "x"] ≠ [JSArg.strA ("TRACE" ++ " " ++ "x")] := by
  refine ⟨by decide, rfl, rfl, by decide, by decide⟩

/-- C7 (amended): when the resolved `useLevelPrefixes` is true, every installed
level method is a no-op (disabled level) or a prefix wrapper carrying its own
level's text - except `trace`, which is installed as the bare bound
`console.trace` when the underlying logger is console and `useConsoleTrace` is
set; and every prefix wrapper prepends its prefix plus a space to a string
first argument exactly when that string does not already start with the
prefix, leaving already-prefixed messages unchanged. -/
theorem c7_prefix_insertion {tobj t' : TargetObj} {S O : Option RawOptions} {force : Bool}
    {env : String → Option String}
    (hGo : force = true ∨ truthyV (isLoggingConfigured (.obj tobj)) = false)
    (hOk : configureLogging (.obj tobj) S O force env = .ok (.obj t'))
    (hPfx : (resolveSettings S O).useLevelPrefixes = some true) :
    (∃ m, t'.error = .funcV (.prefixed m "ERROR")) ∧
    (t'.warn = .funcV .noop ∨ ∃ m, t'.warn = .funcV (.prefixed m "WARN")) ∧
    (t'.info = .funcV .noop ∨ ∃ m, t'.info = .funcV (.prefixed m "INFO")) ∧
    (t'.debug = .funcV .noop ∨ ∃ m, t'.debug = .funcV (.prefixed m "DEBUG")) ∧
    (t'.trace = .funcV .noop ∨ (∃ m, t'.trace = .funcV (.prefixed m "TRACE")) ∨
      (t'.trace = .funcV (.plain .trace) ∧ finalLogger (resolveSettings S O) = .console ∧
        (resolveSettings S O).useConsoleTrace = some true)) ∧
    (∀ (m : MethodName) (p s : String) (rest : List JSArg),
      callLevelFn (.prefixed m p) (.strA s :: rest) =
        some (m, if jsStartsWith s p then .strA s :: rest
          else .strA (p ++ " " ++ s) :: rest)) := by
  have ht : t' = installFields tobj (resolveSettings S O) env :=
    JSTarget.obj.inj (configureLogging_installs hGo hOk)
  subst ht
  have hPfxD : (resolveSettings S O).useLevelPrefixes.getD false = true := by rw [hPfx]; rfl
  refine ⟨?_, ?_, ?_, ?_, ?_, ?_⟩
  · rw [installFields_error, hPfxD,
      resolveLoggingFunction_with_pfx _ _ _ (fun hc => MethodName.noConfusion hc.2)]
    exact ⟨.error, rfl⟩
  · rw [installFields_warn, hPfxD]
    by_cases hw : warnEnabledOf (resolveSettings S O) env = true
    · rw [if_pos hw, resolveLoggingFunction_with_pfx _ _ _
        (fun hc => warnFnNameOf_ne_trace _ hc.2)]
      exact Or.inr ⟨_, rfl⟩
    · rw [if_neg hw]
      exact Or.inl rfl
  · rw [installFields_info, hPfxD]
    by_cases hw : infoEnabledOf (resolveSettings S O) env = true
    · rw [if_pos hw, resolveLoggingFunction_with_pfx _ _ _
        (fun hc => infoFnNameOf_ne_trace _ hc.2)]
      exact Or.inr ⟨_, rfl⟩
    · rw [if_neg hw]
      exact Or.inl rfl
  · rw [installFields_debug, hPfxD]
    by_cases hw : debugEnabledOf (resolveSettings S O) env = true
    · rw [if_pos hw]
      have hd : debugFnNameOf (finalLogger (resolveSettings S O)) ≠ .trace := by
        unfold debugFnNameOf
        split
        · simp
        · split
          · simp
          · exact infoFnNameOf_ne_trace _
      rw [resolveLoggingFunction_with_pfx _ _ _ (fun hc => hd hc.2)]
      exact Or.inr ⟨_, rfl⟩
    · rw [if_neg hw]
      exact Or.inl rfl
  · rw [installFields_trace, hPfxD]
    by_cases hw : traceEnabledOf (resolveSettings S O) env = true
    · rw [if_pos hw]
      by_cases hc : finalLogger (resolveSettings S O) = .console
      · by_cases hu : (resolveSettings S O).useConsoleTrace.getD false = true
        · refine Or.inr (Or.inr ⟨?_, hc, getD_false_true hu⟩)
          rw [hc, hu]
          rfl
        · have hu' : (resolveSettings S O).useConsoleTrace.getD false = false :=
            Bool.not_eq_true _ ▸ Bool.of_not_eq_true hu
          refine Or.inr (Or.inl ⟨.info, ?_⟩)
          rw [hc, hu']
          rfl
      · exact Or.inr (Or.inl ⟨traceFnNameOf (finalLogger (resolveSettings S O))
          ((resolveSettings S O).useConsoleTrace.getD false),
          by rw [resolveLoggingFunction_with_pfx _ _ _ (fun h2 => hc h2.1)]⟩)
    · rw [if_neg hw]
      exact Or.inl rfl
  · intro m p s rest
    rfl

/-- Witness for the amended C7, at the six-method-stub DEBUG scenario. -/
theorem c7_prefix_insertion_witness :
    ((∃ m, debugStubTarget.error = JSVal.funcV (.prefixed m "ERROR")) ∧
      (debugStubTarget.warn = .funcV .noop ∨
        ∃ m, debugStubTarget.warn = .funcV (.prefixed m "WARN")) ∧
      (debugStubTarget.info = .funcV .noop ∨
        ∃ m, debugStubTarget.info = .funcV (.prefixed m "INFO")) ∧
      (debugStubTarget.debug = .funcV .noop ∨
        ∃ m, debugStubTarget.debug = .funcV (.prefixed m "DEBUG")) ∧
      (debugStubTarget.trace = .funcV .noop ∨
        (∃ m, debugStubTarget.trace = .funcV (.prefixed m "TRACE")) ∨
        (debugStubTarget.trace = .funcV (.plain .trace) ∧
          finalLogger (resolveSettings
            (some { logLevel := .vstr "debug", useLevelPrefixes := .vbool true,
                    underlyingLogger := some stubLoggerSix }) none) = .console ∧
          (resolveSettings
            (some { logLevel := .vstr "debug", useLevelPrefixes := .vbool true,
                    underlyingLogger := some stubLoggerSix }) none).useConsoleTrace =
            some true)) ∧
      (∀ (m : MethodName) (p s : String) (rest : List JSArg),
        callLevelFn (.prefixed m p) (.strA s :: rest) =
          some (m, if jsStartsWith s p then .strA s :: rest
            else .strA (p ++ " " ++ s) :: rest))) :=
  @c7_prefix_insertion {} debugStubTarget
    (some { logLevel := .vstr "debug", useLevelPrefixes := .vbool true,
            underlyingLogger := some stubLoggerSix })
    none false (fun _ => none) (Or.inr (by decide)) (by decide) (by decide)

theorem log_dispatch {o : TargetObj} {d : LevelFn} (h : o.log = .dispatchV d)
    (args : List JSArg) : log (.obj o) args = asFreeResult (logAtLevel o d args) := by
  show logOnObj o args = _
  unfold logOnObj
  rw [h]

theorem logAtLevel_warn_hello (o : TargetObj) (d : LevelFn) :
    logAtLevel o d [.strA "WARN", .strA "hello"] = callJSVal o.warn [.strA "hello"] := rfl

theorem logAtLevel_hello (o : TargetObj) (d : LevelFn) :
    logAtLevel o d [.strA "hello"] = .ok (callLevelFn d [.strA "hello"]) := rfl

/-- C8: on every installed target, dispatch by level is equivalent to the
direct level call - `log(target, 'WARN', 'hello')` produces exactly the
observable call of `target.warn('hello')` - and `log(target, 'hello')` (no
recognisable level in the first argument) delegates the arguments unchanged to
the installed log-or-info fallback function. -/
theorem c8_dispatch_correctness {tobj t' : TargetObj} {S O : Option RawOptions} {force : Bool}
    {env : String → Option String}
    (hGo : force = true ∨ truthyV (isLoggingConfigured (.obj tobj)) = false)
    (hOk : configureLogging (.obj tobj) S O force env = .ok (.obj t')) :
    ∃ lb w, t'.log = .dispatchV lb ∧ t'.warn = .funcV w ∧
      log (.obj t') [.strA "WARN", .strA "hello"] =
        .ok ((callLevelFn w [.strA "hello"]).map fun p => .underlying p.1 p.2) ∧
      log (.obj t') [.strA "hello"] =
        .ok ((callLevelFn lb [.strA "hello"]).map fun p => .underlying p.1 p.2) := by
  have ht : t' = installFields tobj (resolveSettings S O) env :=
    JSTarget.obj.inj (configureLogging_installs hGo hOk)
  subst ht
  refine ⟨_, _, installFields_log _ _ _, installFields_warn _ _ _, ?_, ?_⟩
  · rw [log_dispatch (installFields_log _ _ _), logAtLevel_warn_hello,
      installFields_warn]
    rfl
  · rw [log_dispatch (installFields_log _ _ _), logAtLevel_hello]
    rfl

/-- Witness for C8, at the six-method-stub DEBUG scenario. -/
theorem c8_dispatch_correctness_witness :
    ∃ lb w, debugStubTarget.log = JSVal.dispatchV lb ∧
      debugStubTarget.warn = .funcV w ∧
      log (.obj debugStubTarget) [.strA "WARN", .strA "hello"] =
        .ok ((callLevelFn w [.strA "hello"]).map fun p => .underlying p.1 p.2) ∧
      log (.obj debugStubTarget) [.strA "hello"] =
        .ok ((callLevelFn lb [.strA "hello"]).map fun p => .underlying p.1 p.2) :=
  @c8_dispatch_correctness {} debugStubTarget
    (some { logLevel := .vstr "debug", useLevelPrefixes := .vbool true,
            underlyingLogger := some stubLoggerSix })
    none false (fun _ => none) (Or.inr (by decide)) (by decide)

/-- Counterexample to C9 as stated: `isLoggingConfigured(null)` returns `null`
itself (the source's `target && ...` short-circuits to the falsy target), which
is not a boolean; likewise `undefined` is returned for an undefined target. -/
theorem c9_counterexample :
    isLoggingConfigured .jsNull = .nullV ∧
    isLoggingConfigured .jsUndefined = .undefV ∧
    isBooleanV (isLoggingConfigured .jsNull) = false ∧
    isLoggingConfigured .jsNull ≠ .boolV true ∧
    isLoggingConfigured .jsNull ≠ .boolV false := by decide

/-- C9 (amended): for an object target `isLoggingConfigured` returns a boolean
that is true exactly when the four enabled flags are booleans and the five
level methods are functions; for a falsy target (`null` / `undefined`) it
returns that falsy target itself rather than a boolean. -/
theorem c9_nine_property_check (o : TargetObj) :
    isLoggingConfigured .jsNull = .nullV ∧
    isLoggingConfigured .jsUndefined = .undefV ∧
    (∃ b, isLoggingConfigured (.obj o) = .boolV b) ∧
    (isLoggingConfigured (.obj o) = .boolV true ↔
      isBooleanV o.warnEnabled = true ∧ isBooleanV o.infoEnabled = true ∧
      isBooleanV o.debugEnabled = true ∧ isBooleanV o.traceEnabled = true ∧
      isFunctionV o.error = true ∧ isFunctionV o.warn = true ∧
      isFunctionV o.info = true ∧ isFunctionV o.debug = true ∧
      isFunctionV o.trace = true) := by
  refine ⟨rfl, rfl, ⟨_, rfl⟩, ?_, ?_⟩
  · intro h
    have hb := JSVal.boolV.inj h
    simp only [Bool.and_eq_true] at hb
    tauto
  · rintro ⟨h1, h2, h3, h4, h5, h6, h7, h8, h9⟩
    show JSVal.boolV _ = JSVal.boolV true
    rw [h1, h2, h3, h4, h5, h6, h7, h8, h9]
    rfl

/-- C10: a prefix wrapper called with a non-string first argument replaces it
by the string `"<PREFIX> <value>"`, converting the value to a string; in
particular an `Error` first argument with a (truthy) stack is replaced by the
prefix followed by its stack text. -/
theorem c10_nonstring_prefix_conversion (m : MethodName) (p : String) (a : JSArg)
    (rest : List JSArg) (hNS : isStringA a = false) :
    callLevelFn (.prefixed m p) (a :: rest) =
      some (m, .strA (p ++ " " ++ errStackOrSelf a) :: rest) ∧
    (∀ (txt st : String) (rest2 : List JSArg), st ≠ "" →
      callLevelFn (.prefixed m p) (.errA txt (some st) :: rest2) =
        some (m, .strA (p ++ " " ++ st) :: rest2)) := by
  constructor
  · cases a with
    | strA s => exact absurd hNS (by simp [isStringA])
    | errA txt st => rfl
    | otherA s => rfl
  · intro txt st rest2 hst
    have he : errStackOrSelf (.errA txt (some st)) = st := by
      show (if st ≠ "" then st else txt) = st
      rw [if_pos hst]
    show some (m, JSArg.strA (p ++ " " ++ errStackOrSelf (.errA txt (some st))) :: rest2) =
      some (m, .strA (p ++ " " ++ st) :: rest2)
    rw [he]

/-- Witness for C10: an `ERROR`-prefixed method invoked with the non-string
value `42` and with an `Error` whose stack is `"stack text"`. -/
theorem c10_nonstring_prefix_conversion_witness :
    isStringA (JSArg.otherA "42") = false ∧
    (callLevelFn (.prefixed .error "ERROR") [JSArg.otherA "42"] =
        some (.error, [.strA ("ERROR" ++ " " ++ errStackOrSelf (JSArg.otherA "42"))]) ∧
      (∀ (txt st : String) (rest2 : List JSArg), st ≠ "" →
        callLevelFn (.prefixed .error "ERROR") (.errA txt (some st) :: rest2) =
          some (.error, .strA ("ERROR" ++ " " ++ st) :: rest2))) :=
  ⟨by decide, c10_nonstring_prefix_conversion .error "ERROR" (.otherA "42") [] (by decide)⟩

end LoggingUtils
